import Mathlib

/- Shallow embedding of the Nalibali chef (src/nalibali_chef.py).

   Python strings are modelled as lists of characters (`Str`), Python `None`
   as `Option.none`, raised exceptions as `Except.error`, and the HTTP
   collaborators (page fetch, HEAD probe) as explicit function parameters.
   All definitions are executable. -/

/-- A Python string, modelled as its list of characters. -/
abbrev Str : Type := List Char

/-- The character list of a Lean string literal; used to write the Python
string literals appearing in the source. -/
def toStr (s : String) : Str := s.data

/-- Python substring membership test, `sub in s`. -/
def py_contains (sub s : Str) : Bool :=
  (List.range (s.length + 1)).any fun i => sub.isPrefixOf (s.drop i)

/-- Python `s.endswith(suffix)`. -/
def py_endswith (suffix s : Str) : Bool :=
  suffix.isSuffixOf s

/-- Python `s.strip()`: removes whitespace from both ends. -/
def py_strip (s : Str) : Str :=
  ((s.dropWhile Char.isWhitespace).reverse.dropWhile Char.isWhitespace).reverse

/-- Python `s.lower()` (the labels the chef lowercases are ASCII). -/
def py_lower (s : Str) : Str :=
  s.map Char.toLower

/-- `NalibaliChef.__get_text(elem)`: the empty string for a missing element,
otherwise the element text with carriage returns removed, newlines turned
into spaces, and surrounding whitespace stripped
(`elem.get_text().replace(chr(13), empty).replace(chr(10), space).strip()`). -/
def get_text (elem : Option Str) : Str :=
  match elem with
  | none => []
  | some s => py_strip ((s.filter (fun c => c ≠ '\r')).map (fun c => if c = '\n' then ' ' else c))

/-- `NalibaliChef.__absolute_url(url)` with `HOSTNAME = nalibali.org`. -/
def absolute_url (url : Str) : Str :=
  if (toStr "//").isPrefixOf url then toStr "https:" ++ url
  else if (toStr "/").isPrefixOf url then toStr "http://nalibali.org" ++ url
  else url

/-- The match of `STORY_PAGE_LINK_RE`, the Python regex
`^.+page=(?P<page>\d+)$`, against `href`, returning the `page` group.
The dot matches any character except a newline, and the end anchor also
matches just before one final trailing newline, so: after discarding one
trailing newline, the string must be `pre ++ "page=" ++ digits` with `digits`
a nonempty run of digits reaching the end (greedily maximal, since the
character before the group is `=`), `pre` nonempty and newline-free.
Digits are modelled as ASCII digits. -/
def story_page_link_match (href : Str) : Option Str :=
  let s := if py_endswith (toStr "\n") href then href.dropLast else href
  let ds := (s.reverse.takeWhile Char.isDigit).reverse
  let rest := s.take (s.length - ds.length)
  if ds.isEmpty then none
  else if ¬ (toStr "page=").isSuffixOf rest then none
  else
    let pre := rest.take (rest.length - 5)
    if pre.isEmpty ∨ pre.contains '\n' then none
    else some ds

/-- An anchor element, as far as the chef inspects it: its `href` attribute
and its text content. -/
structure Anchor where
  href : Str
  text : Str
deriving DecidableEq

/-- The `NalibaliPagination` record built by `NalibaliChef._to_pagination`
(the constant `kind` field is omitted; `page` is kept as a *string*, exactly
as the regex group is in the source). -/
structure Pagination where
  url : Str
  page : Str
  name : Str
deriving DecidableEq

/-- `NalibaliChef._to_pagination(anchor)`: parse the page link, raising
(`Except.error`) when `STORY_PAGE_LINK_RE` does not match. -/
def to_pagination (anchor : Anchor) : Except Str Pagination :=
  match story_page_link_match anchor.href with
  | none => .error (toStr "STORY_PAGE_LINK_RE could not match")
  | some page =>
      .ok { url := absolute_url anchor.href
          , page := page
          , name := get_text (some anchor.text) }

/-- The filter applied in `NalibaliChef._crawl_pagination` selecting the
`actual_paginations`: the name must not contain `next`, `last`, `first`,
`previous` or `>`, and must be nonempty. -/
def actual_pagination_keep (p : Pagination) : Bool :=
  !py_contains (toStr "next") p.name && !py_contains (toStr "last") p.name
    && !py_contains (toStr "first") p.name && !py_contains (toStr "previous") p.name
    && !py_contains (toStr ">") p.name && !p.name.isEmpty

/-- Python `dict` lookup on an association list built by a comprehension:
later bindings override earlier ones, so look the key up from the right. -/
def py_dict_get {α : Type} (m : List (Str × α)) (k : Str) : Option α :=
  m.reverse.lookup k

/-- A fetched listing page, as far as `_crawl_pagination` inspects it: the
`ul.pagination` element (absent, or present with its list of anchors). -/
structure PageDoc where
  pagination_ul : Option (List Anchor)

/-- `NalibaliChef._crawl_pagination(url)`.  The HTTP fetch is the `site`
parameter; `fuel` bounds the recursion depth (the Python recursion has no
such bound).  BeautifulSoup pre-selects the anchors whose `href` matches
`STORY_PAGE_LINK_RE`.  The result `Option (List Pagination)` models the
Python return value, which is the `None` result of `list.extend` on the
recursive path; `list.extend(None)` itself raises a `TypeError`, and
`actual_paginations[-1]` raises an `IndexError` on an empty list. -/
def crawl_pagination (site : Str → PageDoc) : Nat → Str → Except Str (Option (List Pagination))
  | 0, _ => .error (toStr "out of fuel")
  | fuel + 1, url =>
    match (site url).pagination_ul with
    | none => .ok (some [])
    | some ul =>
      let anchors := ul.filter fun a => (story_page_link_match a.href).isSome
      match anchors.mapM to_pagination with
      | .error e => .error e
      | .ok paginations =>
        let paginations_dict := paginations.map fun p => (p.page, p)
        let actual_paginations := paginations.filter actual_pagination_keep
        match py_dict_get paginations_dict (toStr "last") with
        | none => .ok (some actual_paginations)
        | some last =>
          match actual_paginations.getLast? with
          | none => .error (toStr "IndexError")
          | some current_last =>
            if current_last.page = last.page then .ok (some actual_paginations)
            else
              match crawl_pagination site fuel current_last.url with
              | .error e => .error e
              | .ok none => .error (toStr "TypeError: extend of None")
              | .ok (some _) => .ok none

/-- `NalibaliChef.__process_language(language)`: the small rewrite table
applied to a raw language label. -/
def process_language (language : Str) : Str :=
  let lang := py_lower language
  if lang = toStr "sotho" then toStr "Sesotho"
  else if lang = toStr "ndebele" then toStr "North Ndebele"
  else if lang = toStr "tsivenda" then toStr "Tshivenda"
  else language

/-- Modelled from the spec: the external language-lookup service
(`le_utils.constants.languages.getlang_by_name`), a known-language lookup by
localized name, restricted to the languages this chef encounters and
returning the language code of a recognized name.  `Klingon` is not a
recognized language. -/
def getlang_code_by_name (s : Str) : Option Str :=
  py_dict_get
    [ (toStr "English", toStr "en")
    , (toStr "Afrikaans", toStr "af")
    , (toStr "Sesotho", toStr "st")
    , (toStr "Setswana", toStr "tn")
    , (toStr "North Ndebele", toStr "nd")
    , (toStr "Tshivenda", toStr "ve")
    , (toStr "Xitsonga", toStr "ts")
    , (toStr "Swati", toStr "ss")
    , (toStr "Xhosa", toStr "xh")
    , (toStr "Zulu", toStr "zu") ] s

/-- Modelled from the spec: the external language-lookup service
(`le_utils.constants.languages.getlang_by_native_name`), a known-language
lookup by native name, restricted to the languages this chef encounters. -/
def getlang_code_by_native_name (s : Str) : Option Str :=
  py_dict_get
    [ (toStr "English", toStr "en")
    , (toStr "Afrikaans", toStr "af")
    , (toStr "Sesotho", toStr "st")
    , (toStr "Setswana", toStr "tn")
    , (toStr "isiNdebele", toStr "nd")
    , (toStr "Tshivenda", toStr "ve")
    , (toStr "Xitsonga", toStr "ts")
    , (toStr "siSwati", toStr "ss")
    , (toStr "isiXhosa", toStr "xh")
    , (toStr "isiZulu", toStr "zu") ] s

/-- Truthiness of `getlang_by_name(s)` in the source. -/
def getlang_by_name (s : Str) : Bool :=
  (getlang_code_by_name s).isSome

/-- Truthiness of `getlang_by_native_name(s)` in the source. -/
def getlang_by_native_name (s : Str) : Bool :=
  (getlang_code_by_native_name s).isSome

/-- The language resolution applied to one language anchor in
`NalibaliChef._to_story` (the loop at its middle): the anchor text goes
through `__get_text`, then `__process_language`, and the result is kept only
when one of the two language lookups recognizes it, defaulting to
`English`. -/
def to_story_language (anchor_text : Str) : Str :=
  let tentative_lang := process_language (get_text (some anchor_text))
  if getlang_by_name tentative_lang || getlang_by_native_name tentative_lang then tentative_lang
  else toStr "English"

/-- `NalibaliChef.__get_language_code(language_str)`: the code of the
language found by name or native name, else the code of `English`. -/
def get_language_code (language_str : Str) : Str :=
  match getlang_code_by_name language_str with
  | some code => code
  | none =>
    match getlang_code_by_native_name language_str with
    | some code => code
    | none => toStr "en"

/-- The `NalibaliLocalizedStory` record built in `NalibaliChef._to_story`
(the constant `kind` field is omitted). -/
structure LocalizedStory where
  title : Str
  posted_date : Str
  author : Str
  language : Str
  url : Str
  thumbnail : Option Str
deriving DecidableEq

/-- The `NalibaliStory` record built in `NalibaliChef._to_story`: the shared
fields plus the per-language map `supported_languages` (a Python dict,
modelled as an association list in insertion order). -/
structure Story where
  title : Str
  posted_date : Str
  author : Str
  supported_languages : List (Str × LocalizedStory)
deriving DecidableEq

/-- The per-language merge state of `NalibaliChef._crawl_story_hierarchy`:
for each language, the pair of the `uniques` URL set (modelled as a
duplicate-free list, only membership is consulted) and the accumulated
story list. -/
abbrev MergeState : Type := List (Str × (List Str × List LocalizedStory))

/-- Python `dict` assignment `m[k] = v`: replace the binding of `k` in
place, or append a new binding at the end. -/
def py_dict_set {α : Type} (m : List (Str × α)) (k : Str) (v : α) : List (Str × α) :=
  match m with
  | [] => [(k, v)]
  | (k2, v2) :: rest => if k2 = k then (k, v) :: rest else (k2, v2) :: py_dict_set rest k v

/-- One iteration of the innermost loop of
`NalibaliChef._crawl_story_hierarchy`: fetch (or create) the language's
`(uniques, stories)` pair, append the story when its URL is unseen, and add
the URL to the seen set.  Keys of a Python dict are unique, so the lookup is
the plain first-match association lookup. -/
def merge_one_story (m : MergeState) (lang : Str) (story : LocalizedStory) : MergeState :=
  let by_language := (m.lookup lang).getD ([], [])
  let uniques := by_language.1
  let stories := by_language.2
  let stories2 := if story.url ∈ uniques then stories else stories ++ [story]
  let uniques2 := if story.url ∈ uniques then uniques else uniques ++ [story.url]
  py_dict_set m lang (uniques2, stories2)

/-- The merging loop of `NalibaliChef._crawl_story_hierarchy` (lines
290-306): fold the per-page story buckets into the per-language state, then
drop the `uniques` component. -/
def merge_stories_by_language (all_stories_by_bucket : List (List Story)) : List (Str × List LocalizedStory) :=
  let m : MergeState :=
    all_stories_by_bucket.foldl
      (fun m stories_bucket =>
        stories_bucket.foldl
          (fun m story =>
            story.supported_languages.foldl
              (fun m ls => merge_one_story m ls.1 ls.2) m)
          m)
      []
  m.map fun p => (p.1, p.2.2)

/-- The full traversal sequence of `(language, localized story)` pairs the
merge loop visits: buckets in page order, stories in page order, language
entries in dict insertion order. -/
def all_language_pairs (all_stories_by_bucket : List (List Story)) : List (Str × LocalizedStory) :=
  (all_stories_by_bucket.flatten.map Story.supported_languages).flatten

/-- The subsequence of a traversal sequence that belongs to one language. -/
def proj_lang (lang : Str) (pairs : List (Str × LocalizedStory)) : List LocalizedStory :=
  pairs.filterMap fun p => if p.1 = lang then some p.2 else none

/-- First-occurrence deduplication by URL: keep a story only when its URL
has not been seen, in order.  This is the specification-side description of
the merged per-language list. -/
def first_occurrence_dedup : List LocalizedStory → List Str → List LocalizedStory
  | [], _ => []
  | story :: rest, seen =>
    if story.url ∈ seen then first_occurrence_dedup rest seen
    else story :: first_occurrence_dedup rest (story.url :: seen)

/-- Python `url.split(chr(63))[0]`: the part of the URL before any query
string. -/
def strip_query (url : Str) : Str :=
  url.takeWhile (fun c => c ≠ '?')

/-- `os.path.basename` on a POSIX path: the part after the last slash. -/
def os_path_basename (p : Str) : Str :=
  (p.reverse.takeWhile (fun c => c ≠ '/')).reverse

/-- `os.path.dirname` on a POSIX path: everything up to the last slash, with
trailing slashes removed unless the head is all slashes. -/
def os_path_dirname (p : Str) : Str :=
  let head := p.take (p.length - (p.reverse.takeWhile (fun c => c ≠ '/')).length)
  if ¬ head.isEmpty ∧ ¬ head.all (fun c => c = '/') then
    (head.reverse.dropWhile (fun c => c = '/')).reverse
  else head

/-- `PurePosixPath(name).stem` for a plain file name: the name with its last
suffix removed, where a suffix is a final `.part` whose dot is neither the
first nor the last character. -/
def posix_stem (name : Str) : Str :=
  let after := name.reverse.takeWhile (fun c => c ≠ '.')
  if after.length = name.length then name
  else
    let i := name.length - after.length - 1
    if 0 < i ∧ i < name.length - 1 then name.take i else name

/-- `os.path.join(a, b)` for POSIX paths. -/
def os_path_join (a b : Str) : Str :=
  if (toStr "/").isPrefixOf b then b
  else if a.isEmpty || py_endswith (toStr "/") a then a ++ b
  else a ++ toStr "/" ++ b

/-- The sibling mp3 URL built for one feed item in
`NalibaliChef._crawl_audio_stories_hierarchy`: strip the query string from
the enclosure URL, then join the directory with the extension-free file name
and append `.mp3`. -/
def mp3_sibling_url (enclosure_url : Str) : Str :=
  let url := strip_query enclosure_url
  os_path_join (os_path_dirname url) (posix_stem (os_path_basename url)) ++ toStr ".mp3"

/-- The media-URL resolution for one feed item in
`NalibaliChef._crawl_audio_stories_hierarchy` (lines 252-261): the HEAD
probe is the `head_status` parameter; a probe that does not report 200
raises; otherwise the episode URL is chosen by the (now decided) fallback
conditional of the source. -/
def resolve_audio_item (head_status : Str → Nat) (enclosure_url : Str) : Except Str Str :=
  let url := strip_query enclosure_url
  let filename := os_path_basename url
  let filename_no_extension := posix_stem filename
  let mp3_url := os_path_join (os_path_dirname url) filename_no_extension ++ toStr ".mp3"
  let mp3_version_exists : Bool := head_status mp3_url == 200
  if !mp3_version_exists then .error (toStr "No mp3 version available")
  else .ok (if mp3_version_exists then mp3_url else url)

/-- Modelled from the spec: the path component of
`urllib.parse.urlparse(url)` (an external collaborator), for the absolute
`http(s)` URLs this chef handles: the part after the network location, cut
at any query string or fragment. -/
def urlparse_path (url : Str) : Str :=
  let rest :=
    match (List.range (url.length + 1)).find? (fun i => (toStr "://").isPrefixOf (url.drop i)) with
    | some i => (url.drop (i + 3)).dropWhile (fun c => c ≠ '/')
    | none => url
  rest.takeWhile (fun c => ¬ (c = '?' ∨ c = '#'))

/-- The license constant attached to every produced node
(`get_license(licenses.CC_BY_NC_ND, ...)`), kept abstract as its name. -/
def LICENSE : Str := toStr "CC BY-NC-ND"

/-- A story-card record as `NalibaliChef._scrape_story_card` reads it: the
`url` field may be missing or empty (Python falsy). -/
structure CardStory where
  url : Option Str
  language : Str
  title : Str
  author : Str
  thumbnail : Option Str
deriving DecidableEq

/-- The document node built by `NalibaliChef._scrape_story_card`. -/
structure DocumentNode where
  source_id : Str
  kind : Str
  title : Str
  license : Str
  author : Str
  thumbnail : Option Str
  language : Str
  file_path : Str
deriving DecidableEq

/-- `NalibaliChef._scrape_story_card(story)`: only a present URL ending in
`.pdf` is supported, anything else raises. -/
def scrape_story_card (story : CardStory) : Except Str DocumentNode :=
  let lang_code := get_language_code story.language
  match story.url with
  | none => .error (toStr "Non-PDF version not implemented")
  | some url =>
    if !url.isEmpty && py_endswith (toStr ".pdf") url then
      .ok { source_id := urlparse_path url
          , kind := toStr "document"
          , title := story.title
          , license := LICENSE
          , author := story.author
          , thumbnail := story.thumbnail
          , language := lang_code
          , file_path := url }
    else .error (toStr "Non-PDF version not implemented")

/-- A `NalibaliHierarchy` record: the fields set by
`NalibaliChef.__to_story_hierarchy` plus the `children` mapping from
language to story list added by `_crawl_story_hierarchies`.  The story
record type is a parameter, since the snapshot holds plain dicts. -/
structure Hierarchy (σ : Type) where
  kind : Str
  title : Str
  thumbnail : Str
  description : Str
  url : Str
  children : List (Str × List σ)
deriving DecidableEq

/-- A content node of the scraping stage: a topic with its children, or an
opaque leaf produced by one of the per-story scraping functions. -/
inductive ContentNode : Type where
  | topic (source_id : Str) (title : Str) (description : Str)
      (children : List ContentNode) (thumbnail : Option Str) : ContentNode
  | item (source_id : Str) : ContentNode

/-- The title of a content node. -/
def node_title : ContentNode → Str
  | .topic _ title _ _ _ => title
  | .item source_id => source_id

/-- The children of a content node. -/
def node_children : ContentNode → List ContentNode
  | .topic _ _ _ children _ => children
  | .item _ => []

/-- The titles of a node's children. -/
def node_child_titles (n : ContentNode) : List Str :=
  (node_children n).map node_title

/-- Python `title.replace(space, underscore)`. -/
def py_space_to_underscore (s : Str) : Str :=
  s.map fun c => if c = ' ' then '_' else c

/-- `NalibaliChef._scrape_hierarchy(hierarchy, story_scraping_func)`: a
missing hierarchy raises (Python subscripts `None`), a wrong `kind` fails
the assertion; otherwise one topic per language entry is built (a falsy,
i.e. `none`, scraped story is dropped), wrapped in the hierarchy topic. -/
def scrape_hierarchy {σ : Type} (story_scraping_func : σ → Option ContentNode) :
    Option (Hierarchy σ) → Except Str ContentNode
  | none => .error (toStr "TypeError: NoneType is not subscriptable")
  | some hierarchy =>
    if hierarchy.kind = toStr "NalibaliHierarchy" then
      let hierarchy_name := py_space_to_underscore hierarchy.title
      .ok (.topic hierarchy.title hierarchy.title hierarchy.description
        (hierarchy.children.map fun p =>
          .topic (hierarchy_name ++ toStr "_" ++ p.1) p.1 (toStr "Stories in " ++ p.1)
            (p.2.filterMap story_scraping_func) none)
        (some hierarchy.thumbnail))
    else .error (toStr "AssertionError")

/-- The `hierarchies_map` dict of `NalibaliChef.scrape`: hierarchies keyed
by title. -/
def hierarchies_map {σ : Type} (hs : List (Hierarchy σ)) : List (Str × Hierarchy σ) :=
  hs.map fun h => (h.title, h)

/-- `NalibaliChef.scrape` (lines 343-350), from the snapshot's hierarchy
list: a `children` slot list of `len(hierarchies_map)` `None`s is filled at
indices 0-4 with the five fixed hierarchy scrapes, in order; the first
missing title raises (the right-hand side is evaluated before each
assignment, and `_scrape_hierarchy` subscripts the `None` lookup result).
An in-range check is not modelled separately: when all five lookups succeed
the map has at least five distinct keys, so every index is in range. -/
def scrape {σ : Type} (f_multilingual f_audio f_card f_seed f_your : σ → Option ContentNode)
    (hs : List (Hierarchy σ)) : Except Str (List (Option ContentNode)) :=
  let m := hierarchies_map hs
  match scrape_hierarchy f_multilingual (py_dict_get m (toStr "Multilingual stories")) with
  | .error e => .error e
  | .ok c0 =>
    match scrape_hierarchy f_audio (py_dict_get m (toStr "Audio stories")) with
    | .error e => .error e
    | .ok c1 =>
      match scrape_hierarchy f_card (py_dict_get m (toStr "Story cards")) with
      | .error e => .error e
      | .ok c2 =>
        match scrape_hierarchy f_seed (py_dict_get m (toStr "Story seeds")) with
        | .error e => .error e
        | .ok c3 =>
          match scrape_hierarchy f_your (py_dict_get m (toStr "Your stories")) with
          | .error e => .error e
          | .ok c4 =>
            .ok ((((((List.replicate m.length (none : Option ContentNode)).set 0 (some c0)).set 1
              (some c1)).set 2 (some c2)).set 3 (some c3)).set 4 (some c4))

/-- A hierarchy div of the root listing page, as far as
`NalibaliChef.__to_story_hierarchy` inspects it: the `h2` text (possibly
missing), the responsive image source, the body text (possibly missing) and
the button link. -/
structure HierarchyDiv where
  h2_text : Option Str
  img_src : Str
  body_text : Option Str
  btn_href : Str
deriving DecidableEq

/-- `NalibaliChef.__to_story_hierarchy(div)` (without `children`, which the
caller attaches afterwards). -/
def to_story_hierarchy (σ : Type) (div : HierarchyDiv) : Hierarchy σ :=
  { kind := toStr "NalibaliHierarchy"
  , title := get_text div.h2_text
  , thumbnail := div.img_src
  , description := get_text div.body_text
  , url := absolute_url div.btn_href
  , children := [] }

/-- `NalibaliChef._crawl_story_hierarchies(page)`: build the hierarchy
records of the root page's divs in order, crawl each one (the per-hierarchy
crawler, which closes over the HTTP session, is the `crawl_one` parameter),
and attach to each hierarchy the crawled stories found under its URL
(defaulting to an empty mapping).  The result is the `children` list of the
`NalibaliWebResourceTree` snapshot. -/
def crawl_story_hierarchies {σ : Type}
    (crawl_one : Hierarchy σ → Str × List (Str × List σ))
    (stories_divs : List HierarchyDiv) : List (Hierarchy σ) :=
  let story_hierarchies := stories_divs.map (to_story_hierarchy σ)
  let stories_dict := story_hierarchies.map crawl_one
  story_hierarchies.map fun h => { h with children := (py_dict_get stories_dict h.url).getD [] }

/-- The navigation-decoration set exactly as the specification states it:
a label is excluded when it is empty or contains `next`, `previous`,
`first`, `last` or the glyph `»`.  This definition follows the claim's
words, to be compared with `actual_pagination_keep` from the source. -/
def spec_excludes_label (name : Str) : Bool :=
  name.isEmpty || py_contains (toStr "next") name || py_contains (toStr "previous") name
    || py_contains (toStr "first") name || py_contains (toStr "last") name
    || py_contains (toStr "»") name

/-- A concrete listing whose single pagination control holds one anchor
labelled with the bare `»` glyph. -/
def siteC3 : Str → PageDoc := fun url =>
  if url = toStr "/sl" then
    { pagination_ul := some [{ href := toStr "/sl?page=5", text := toStr "»" }] }
  else { pagination_ul := none }

/-- The pagination anchors shown on the first listing page of the concrete
site below: genuine links to pages 2 and 3 (hrefs `?page=1`, `?page=2`),
a `next ›` decoration, and a `last »` decoration declaring page index 4
(five pages in total). -/
def anchorsC1 : List Anchor :=
  [ { href := toStr "/sl?page=1", text := toStr "2" }
  , { href := toStr "/sl?page=2", text := toStr "3" }
  , { href := toStr "/sl?page=1", text := toStr "next ›" }
  , { href := toStr "/sl?page=4", text := toStr "last »" } ]

/-- A concrete paginated listing with five genuine pages (`/sl` and
`?page=1` … `?page=4`): every page shows the pagination control. -/
def siteC1 : Str → PageDoc := fun url =>
  if url = toStr "/sl" ∨ url = toStr "http://nalibali.org/sl?page=1"
      ∨ url = toStr "http://nalibali.org/sl?page=2" ∨ url = toStr "http://nalibali.org/sl?page=3"
      ∨ url = toStr "http://nalibali.org/sl?page=4" then
    { pagination_ul := some anchorsC1 }
  else { pagination_ul := none }

/-- A story card with a well-formed PDF URL. -/
def card_pdf_example : CardStory :=
  { url := some (toStr "http://nalibali.org/files/card.pdf"), language := toStr "Sesotho"
  , title := toStr "Card", author := toStr "A", thumbnail := none }

/-- A story card whose URL is missing. -/
def card_missing_url_example : CardStory :=
  { url := none, language := toStr "English", title := toStr "Card2", author := toStr "B"
  , thumbnail := none }

/-- The accumulated story list of one language in the merge state. -/
def state_stories (m : MergeState) (lang : Str) : List LocalizedStory :=
  ((List.lookup lang m).getD ([], [])).2

/-- The seen-URL set of one language in the merge state. -/
def state_seen (m : MergeState) (lang : Str) : List Str :=
  ((List.lookup lang m).getD ([], [])).1

/-- A scraping function for the structure-level claims: every story becomes
an opaque leaf node. -/
def fC8 : Str → Option ContentNode := fun s => some (ContentNode.item s)

/-- A snapshot hierarchy with a given title and two language buckets. -/
def hier5 (t : String) : Hierarchy Str :=
  { kind := toStr "NalibaliHierarchy", title := toStr t, thumbnail := toStr "/t.png"
  , description := toStr "d", url := toStr ("/u" ++ t)
  , children := [(toStr "English", [toStr "s1"]), (toStr "Sesotho", [toStr "s2"])] }

/-- The snapshot of the claim's end-to-end scenario: exactly the three
hierarchies `Multilingual stories`, `Audio stories`, `Story cards`. -/
def hs3 : List (Hierarchy Str) :=
  [hier5 "Multilingual stories", hier5 "Audio stories", hier5 "Story cards"]

/-- A snapshot with all five hierarchy titles the scrape stage looks up. -/
def hs5 : List (Hierarchy Str) :=
  [ hier5 "Multilingual stories", hier5 "Audio stories", hier5 "Story cards"
  , hier5 "Story seeds", hier5 "Your stories" ]

/-- A root-page hierarchy div for `Multilingual stories`. -/
def divC8a : HierarchyDiv :=
  { h2_text := some (toStr "Multilingual stories"), img_src := toStr "/i1.png"
  , body_text := some (toStr "b1"), btn_href := toStr "/story-library/multilingual-stories" }

/-- A root-page hierarchy div for `Audio stories`. -/
def divC8b : HierarchyDiv :=
  { h2_text := some (toStr "Audio stories"), img_src := toStr "/i2.png"
  , body_text := some (toStr "b2"), btn_href := toStr "/story-library/audio-stories" }

/-- A root-page hierarchy div for `Story cards`. -/
def divC8c : HierarchyDiv :=
  { h2_text := some (toStr "Story cards"), img_src := toStr "/i3.png"
  , body_text := some (toStr "b3"), btn_href := toStr "/story-library/story-cards" }

/-- A concrete per-hierarchy crawler: one English bucket per hierarchy. -/
def crawlC8 : Hierarchy Str → Str × List (Str × List Str) := fun h =>
  (h.url, [(toStr "English", [toStr "s1"])])

theorem isPrefixOf_append_self (p t : Str) : p.isPrefixOf (p ++ t) = true := by
  induction p <;> simp_all [List.isPrefixOf]

theorem py_endswith_append (l s : Str) : py_endswith s (l ++ s) = true := by
  simp [py_endswith, List.isSuffixOf, List.reverse_append, isPrefixOf_append_self]

theorem resolve_audio_item_eq (head_status : Str → Nat) (enclosure_url : Str) :
    resolve_audio_item head_status enclosure_url
      = if head_status (mp3_sibling_url enclosure_url) = 200
        then .ok (mp3_sibling_url enclosure_url)
        else .error (toStr "No mp3 version available") := by
  unfold resolve_audio_item mp3_sibling_url
  by_cases h : head_status (os_path_join (os_path_dirname (strip_query enclosure_url))
      (posix_stem (os_path_basename (strip_query enclosure_url))) ++ toStr ".mp3") = 200 <;>
    simp [h]

/-- C1: the claim states that `_crawl_pagination` returns one descriptor per
genuine page, strictly increasing, reaching the declared last page by
repeatedly following the current last genuine descriptor.  On the code this
fails: `paginations_dict` is keyed by the numeric page strings, so the
lookup of the key `last` never succeeds and the walker never follows any
further page (and on the recursive path it would return the `None` result
of `list.extend`).  On the concrete five-page site `siteC1`, whose first
page declares `last` at page index 4, the walker returns only the two
descriptors shown on the first page. -/
theorem c1_pagination_walker_stops_on_first_page :
    (crawl_pagination siteC1 10 (toStr "/sl")).map (Option.map (List.map Pagination.page))
        = .ok (some [toStr "1", toStr "2"])
      ∧ (to_pagination { href := toStr "/sl?page=4", text := toStr "last »" }).map Pagination.page
          = .ok (toStr "4") :=
  ⟨rfl, rfl⟩

/-- C2: an anchor whose `href` does not match `STORY_PAGE_LINK_RE` makes
`_to_pagination` raise (return `Except.error`), rather than skip or retry. -/
theorem c2_unmatched_page_link_is_fatal (anchor : Anchor)
    (h : story_page_link_match anchor.href = none) :
    to_pagination anchor = .error (toStr "STORY_PAGE_LINK_RE could not match") := by
  unfold to_pagination
  rw [h]

theorem c2_unmatched_page_link_is_fatal_witness :
    story_page_link_match (toStr "/story-library") = none ∧
      to_pagination { href := toStr "/story-library", text := toStr "2" }
        = .error (toStr "STORY_PAGE_LINK_RE could not match") :=
  ⟨rfl, c2_unmatched_page_link_is_fatal _ rfl⟩

/-- C3 counterexample: the claim says a label consisting of the glyph `»`
is excluded from the genuine-descriptor list, but the source filters on the
character `>` instead, so the walker keeps the `»`-labelled descriptor. -/
theorem c3_guillemet_label_kept_counterexample :
    (crawl_pagination siteC3 2 (toStr "/sl")).map (Option.map (List.map Pagination.name))
        = .ok (some [toStr "»"])
      ∧ spec_excludes_label (toStr "»") = true :=
  ⟨rfl, rfl⟩

/-- C3 (amended): a pagination anchor is excluded from the
genuine-descriptor list exactly when its display label is empty or contains
one of `next`, `previous`, `first`, `last`, or the character `>`. -/
theorem c3_decoration_filter_amended (p : Pagination) :
    actual_pagination_keep p = false ↔
      p.name = [] ∨ py_contains (toStr "next") p.name = true
        ∨ py_contains (toStr "previous") p.name = true
        ∨ py_contains (toStr "first") p.name = true
        ∨ py_contains (toStr "last") p.name = true
        ∨ py_contains (toStr ">") p.name = true := by
  cases hnext : py_contains (toStr "next") p.name <;>
    cases hlast : py_contains (toStr "last") p.name <;>
      cases hfirst : py_contains (toStr "first") p.name <;>
        cases hprevious : py_contains (toStr "previous") p.name <;>
          cases hgt : py_contains (toStr ">") p.name <;>
            cases hempty : p.name.isEmpty <;>
              simp_all [actual_pagination_keep, List.isEmpty_iff]

/-- C4: the language-label resolution of `_to_story` sends `Sotho`, `sotho`
and `SOTHO ` (stripped by `__get_text`, lowercased by `__process_language`)
to `Sesotho`, and any label that neither language lookup recognizes after
normalization (such as `Klingon`) to `English`. -/
theorem c4_language_normalization :
    to_story_language (toStr "Sotho") = toStr "Sesotho"
      ∧ to_story_language (toStr "sotho") = toStr "Sesotho"
      ∧ to_story_language (toStr "SOTHO ") = toStr "Sesotho"
      ∧ to_story_language (toStr "Klingon") = toStr "English"
      ∧ (∀ label : Str,
          getlang_by_name (process_language (get_text (some label))) = false →
          getlang_by_native_name (process_language (get_text (some label))) = false →
          to_story_language label = toStr "English") := by
  refine ⟨rfl, rfl, rfl, rfl, ?_⟩
  intro label h1 h2
  unfold to_story_language
  simp [h1, h2]

theorem c4_language_normalization_witness :
    to_story_language (toStr "Klingon") = toStr "English" :=
  c4_language_normalization.2.2.2.2 (toStr "Klingon") rfl rfl

/-- C6: for every feed item, the resolver strips the query string, builds
the sibling `.mp3` URL (`mp3_sibling_url`), probes it with a HEAD request,
and returns the `.mp3` variant on success; when the probe does not report
200 it raises instead of falling back to the enclosure URL. -/
theorem c6_audio_probe_resolution (head_status : Str → Nat) (enclosure_url : Str) :
    resolve_audio_item head_status enclosure_url
      = if head_status (mp3_sibling_url enclosure_url) = 200
        then .ok (mp3_sibling_url enclosure_url)
        else .error (toStr "No mp3 version available") :=
  resolve_audio_item_eq head_status enclosure_url

/-- C7: `_scrape_story_card` succeeds exactly on a present URL ending in
`.pdf`, producing a document node whose source identifier is the URL's path
component; a non-PDF or missing URL raises. -/
theorem c7_story_card_pdf_only (story : CardStory) :
    (∀ url : Str, story.url = some url → py_endswith (toStr ".pdf") url = true →
        ∃ node : DocumentNode, scrape_story_card story = .ok node
          ∧ node.source_id = urlparse_path url ∧ node.file_path = url)
      ∧ ((match story.url with
          | none => True
          | some url => py_endswith (toStr ".pdf") url = false) →
        scrape_story_card story = .error (toStr "Non-PDF version not implemented")) := by
  constructor
  · intro url hu hpdf
    have hne : url.isEmpty = false := by
      cases url with
      | nil => exact absurd hpdf (by decide)
      | cons a as => rfl
    refine ⟨{ source_id := urlparse_path url, kind := toStr "document", title := story.title
            , license := LICENSE, author := story.author, thumbnail := story.thumbnail
            , language := get_language_code story.language, file_path := url }, ?_, rfl, rfl⟩
    unfold scrape_story_card
    rw [hu]
    simp [hne, hpdf]
  · intro hcond
    unfold scrape_story_card
    cases hu : story.url with
    | none => rfl
    | some url =>
      rw [hu] at hcond
      simp [hcond]

theorem c7_story_card_pdf_only_witness :
    (∃ node : DocumentNode, scrape_story_card card_pdf_example = .ok node
        ∧ node.source_id = urlparse_path (toStr "http://nalibali.org/files/card.pdf")
        ∧ node.file_path = toStr "http://nalibali.org/files/card.pdf")
      ∧ scrape_story_card card_missing_url_example
          = .error (toStr "Non-PDF version not implemented") :=
  ⟨(c7_story_card_pdf_only card_pdf_example).1 _ rfl (by decide),
   (c7_story_card_pdf_only card_missing_url_example).2 True.intro⟩

/-- C9: every episode URL the resolver returns ends in `.mp3`: the fallback
branch to the original enclosure URL is unreachable, since a failed probe
raises before the episode is built. -/
theorem c9_audio_episode_url_ends_mp3 (head_status : Str → Nat) (enclosure_url u : Str)
    (h : resolve_audio_item head_status enclosure_url = .ok u) :
    py_endswith (toStr ".mp3") u = true := by
  rw [resolve_audio_item_eq] at h
  by_cases hc : head_status (mp3_sibling_url enclosure_url) = 200
  · rw [if_pos hc] at h
    injection h with h2
    subst h2
    exact py_endswith_append _ _
  · rw [if_neg hc] at h
    exact absurd h (by simp)

theorem c9_audio_episode_url_ends_mp3_witness :
    py_endswith (toStr ".mp3") (toStr "http://h/a/ep1.mp3") = true :=
  c9_audio_episode_url_ends_mp3 (fun _ => 200) (toStr "http://h/a/ep1.wav?x=1") _ rfl

/-- C10: `__absolute_url` is idempotent: a URL it has rewritten starts with
`http` or `https`, so a second application leaves it unchanged. -/
theorem c10_absolute_url_idempotent (url : Str) :
    absolute_url (absolute_url url) = absolute_url url := by
  unfold absolute_url
  by_cases h1 : (toStr "//").isPrefixOf url = true
  · rw [if_pos h1]
    rw [show toStr "https:" ++ url = 'h' :: (toStr "ttps:" ++ url) from rfl]
    rw [show ((toStr "//").isPrefixOf ('h' :: (toStr "ttps:" ++ url))) = false from rfl]
    rw [show ((toStr "/").isPrefixOf ('h' :: (toStr "ttps:" ++ url))) = false from rfl]
    simp
  · rw [if_neg h1]
    by_cases h2 : (toStr "/").isPrefixOf url = true
    · rw [if_pos h2]
      rw [show toStr "http://nalibali.org" ++ url = 'h' :: (toStr "ttp://nalibali.org" ++ url) from rfl]
      rw [show ((toStr "//").isPrefixOf ('h' :: (toStr "ttp://nalibali.org" ++ url))) = false from rfl]
      rw [show ((toStr "/").isPrefixOf ('h' :: (toStr "ttp://nalibali.org" ++ url))) = false from rfl]
      simp
    · rw [if_neg h2, if_neg h1, if_neg h2]

theorem lookup_cons_eq {α : Type} (k : Str) (v : α) (rest : List (Str × α)) :
    List.lookup k ((k, v) :: rest) = some v := by
  simp [List.lookup]

theorem lookup_cons_ne {α : Type} (k k2 : Str) (v : α) (rest : List (Str × α)) (h : ¬ k = k2) :
    List.lookup k ((k2, v) :: rest) = List.lookup k rest := by
  have hb : (k == k2) = false := by
    simp [h]
  simp [List.lookup, hb]

theorem lookup_py_dict_set_self {α : Type} (m : List (Str × α)) (k : Str) (v : α) :
    List.lookup k (py_dict_set m k v) = some v := by
  induction m with
  | nil => simp [py_dict_set, lookup_cons_eq]
  | cons p rest ih =>
    obtain ⟨k2, v2⟩ := p
    by_cases h : k2 = k
    · simp [py_dict_set, h, lookup_cons_eq]
    · simp [py_dict_set, h, lookup_cons_ne k k2 _ _ (Ne.symm h), ih]

theorem lookup_py_dict_set_other {α : Type} (m : List (Str × α)) (k k2 : Str) (v : α)
    (h : ¬ k2 = k) : List.lookup k2 (py_dict_set m k v) = List.lookup k2 m := by
  induction m with
  | nil =>
    rw [show py_dict_set ([] : List (Str × α)) k v = [(k, v)] from rfl, lookup_cons_ne k2 k v [] h]
  | cons p rest ih =>
    obtain ⟨k3, v3⟩ := p
    by_cases h3 : k3 = k
    · subst h3
      simp [py_dict_set, lookup_cons_ne k2 k3 _ _ h]
    · simp only [py_dict_set, if_neg h3]
      by_cases h4 : k2 = k3
      · subst h4
        simp [lookup_cons_eq]
      · simp [lookup_cons_ne k2 k3 _ _ h4, ih]

theorem state_stories_merge_self (m : MergeState) (lang : Str) (s : LocalizedStory) :
    state_stories (merge_one_story m lang s) lang
      = state_stories m lang ++ (if s.url ∈ state_seen m lang then [] else [s]) := by
  unfold merge_one_story state_stories state_seen
  rw [lookup_py_dict_set_self]
  by_cases h : s.url ∈ (((List.lookup lang m).getD ([], [])).1 : List Str) <;> simp [h]

theorem state_seen_merge_self (m : MergeState) (lang : Str) (s : LocalizedStory) (u : Str) :
    u ∈ state_seen (merge_one_story m lang s) lang ↔ u ∈ state_seen m lang ∨ u = s.url := by
  unfold merge_one_story state_seen
  rw [lookup_py_dict_set_self]
  by_cases h : s.url ∈ (((List.lookup lang m).getD ([], [])).1 : List Str)
  · simp [h]
    intro hu
    subst hu
    exact h
  · simp [h]

theorem state_stories_merge_other (m : MergeState) (l lang : Str) (s : LocalizedStory)
    (h : ¬ lang = l) :
    state_stories (merge_one_story m l s) lang = state_stories m lang := by
  unfold merge_one_story state_stories
  rw [lookup_py_dict_set_other _ _ _ _ h]

theorem state_seen_merge_other (m : MergeState) (l lang : Str) (s : LocalizedStory)
    (h : ¬ lang = l) :
    state_seen (merge_one_story m l s) lang = state_seen m lang := by
  unfold merge_one_story state_seen
  rw [lookup_py_dict_set_other _ _ _ _ h]

theorem first_occurrence_dedup_congr (l : List LocalizedStory) (s1 s2 : List Str)
    (h : ∀ u, u ∈ s1 ↔ u ∈ s2) :
    first_occurrence_dedup l s1 = first_occurrence_dedup l s2 := by
  induction l generalizing s1 s2 with
  | nil => rfl
  | cons story rest ih =>
    unfold first_occurrence_dedup
    by_cases hu : story.url ∈ s1
    · rw [if_pos hu, if_pos ((h story.url).mp hu), ih s1 s2 h]
    · rw [if_neg hu, if_neg (fun hx => hu ((h story.url).mpr hx))]
      rw [ih (story.url :: s1) (story.url :: s2) (by intro u; simp [h u])]

theorem story_bucket_fold_flatten (bucket : List Story) (m : MergeState) :
    bucket.foldl
        (fun m story => story.supported_languages.foldl (fun m ls => merge_one_story m ls.1 ls.2) m) m
      = ((bucket.map Story.supported_languages).flatten).foldl
          (fun m ls => merge_one_story m ls.1 ls.2) m := by
  induction bucket generalizing m with
  | nil => rfl
  | cons story rest ih =>
    simp only [List.foldl_cons, List.map_cons, List.flatten_cons, List.foldl_append]
    exact ih _

theorem merge_fold_flatten (buckets : List (List Story)) (m : MergeState) :
    buckets.foldl
        (fun m stories_bucket =>
          stories_bucket.foldl
            (fun m story => story.supported_languages.foldl (fun m ls => merge_one_story m ls.1 ls.2) m)
            m)
        m
      = (all_language_pairs buckets).foldl (fun m ls => merge_one_story m ls.1 ls.2) m := by
  induction buckets generalizing m with
  | nil => rfl
  | cons bucket rest ih =>
    simp only [List.foldl_cons, all_language_pairs, List.flatten_cons, List.map_append,
      List.map_cons, List.foldl_append]
    rw [story_bucket_fold_flatten]
    rw [ih]
    simp [all_language_pairs, List.foldl_append]

theorem proj_lang_cons (lang l0 : Str) (s0 : LocalizedStory) (rest : List (Str × LocalizedStory)) :
    proj_lang lang ((l0, s0) :: rest)
      = if l0 = lang then s0 :: proj_lang lang rest else proj_lang lang rest := by
  by_cases h : l0 = lang <;> simp [proj_lang, List.filterMap_cons, h]

theorem first_occurrence_dedup_cons (s : LocalizedStory) (rest : List LocalizedStory)
    (seen : List Str) :
    first_occurrence_dedup (s :: rest) seen
      = if s.url ∈ seen then first_occurrence_dedup rest seen
        else s :: first_occurrence_dedup rest (s.url :: seen) := rfl

theorem merge_fold_invariant (pairs : List (Str × LocalizedStory)) (m : MergeState) (lang : Str) :
    state_stories (pairs.foldl (fun m ls => merge_one_story m ls.1 ls.2) m) lang
        = state_stories m lang
            ++ first_occurrence_dedup (proj_lang lang pairs) (state_seen m lang)
      ∧ ∀ u, u ∈ state_seen (pairs.foldl (fun m ls => merge_one_story m ls.1 ls.2) m) lang
          ↔ u ∈ state_seen m lang ∨ u ∈ (proj_lang lang pairs).map LocalizedStory.url := by
  induction pairs generalizing m with
  | nil => simp [proj_lang, first_occurrence_dedup]
  | cons p rest ih =>
    obtain ⟨l0, s0⟩ := p
    simp only [List.foldl_cons]
    obtain ⟨ih1, ih2⟩ := ih (merge_one_story m l0 s0)
    by_cases hl : l0 = lang
    · subst hl
      rw [proj_lang_cons, if_pos rfl]
      by_cases hu : s0.url ∈ state_seen m l0
      · have hseen : ∀ u, u ∈ state_seen (merge_one_story m l0 s0) l0 ↔ u ∈ state_seen m l0 := by
          intro u
          rw [state_seen_merge_self]
          constructor
          · rintro (h | h)
            · exact h
            · rwa [h]
          · exact Or.inl
        constructor
        · rw [ih1, state_stories_merge_self, if_pos hu, List.append_nil,
            first_occurrence_dedup_congr _ _ _ hseen, first_occurrence_dedup_cons, if_pos hu]
        · intro u
          rw [ih2 u, hseen u]
          simp only [List.map_cons, List.mem_cons]
          constructor
          · rintro (h | h)
            · exact Or.inl h
            · exact Or.inr (Or.inr h)
          · rintro (h | h | h)
            · exact Or.inl h
            · rw [h]
              exact Or.inl hu
            · exact Or.inr h
      · have hseen : ∀ u, u ∈ state_seen (merge_one_story m l0 s0) l0
            ↔ u ∈ s0.url :: state_seen m l0 := by
          intro u
          rw [state_seen_merge_self]
          simp [List.mem_cons, or_comm]
        constructor
        · rw [ih1, state_stories_merge_self, if_neg hu,
            first_occurrence_dedup_congr _ _ _ hseen, List.append_assoc,
            first_occurrence_dedup_cons, if_neg hu]
          rfl
        · intro u
          rw [ih2 u, hseen u]
          simp only [List.map_cons, List.mem_cons]
          tauto
    · rw [proj_lang_cons, if_neg hl]
      rw [state_stories_merge_other _ _ _ _ (fun h => hl (Eq.symm h))] at ih1
      rw [state_seen_merge_other _ _ _ _ (fun h => hl (Eq.symm h))] at ih1
      constructor
      · exact ih1
      · intro u
        rw [ih2 u, state_seen_merge_other _ _ _ _ (fun h => hl (Eq.symm h))]

theorem lookup_map_snd (m : MergeState) (lang : Str) :
    List.lookup lang (m.map fun p => (p.1, p.2.2))
      = (List.lookup lang m).map (fun q => q.2) := by
  induction m with
  | nil => rfl
  | cons p rest ih =>
    obtain ⟨k, v⟩ := p
    by_cases h : lang = k
    · subst h
      simp [lookup_cons_eq]
    · simp only [List.map_cons]
      rw [lookup_cons_ne lang k _ _ h, lookup_cons_ne lang k _ _ h, ih]

theorem first_occurrence_dedup_nodup (l : List LocalizedStory) (seen : List Str) :
    ((first_occurrence_dedup l seen).map LocalizedStory.url).Nodup
      ∧ ∀ u, u ∈ (first_occurrence_dedup l seen).map LocalizedStory.url → u ∉ seen := by
  induction l generalizing seen with
  | nil => simp [first_occurrence_dedup]
  | cons s rest ih =>
    rw [first_occurrence_dedup_cons]
    by_cases hu : s.url ∈ seen
    · rw [if_pos hu]
      exact ih seen
    · rw [if_neg hu]
      obtain ⟨ihn, ihs⟩ := ih (s.url :: seen)
      simp only [List.map_cons, List.nodup_cons]
      refine ⟨⟨?_, ihn⟩, ?_⟩
      · intro hmem
        exact (ihs s.url hmem) (List.mem_cons_self _ _)
      · intro u hmem
        rcases List.mem_cons.mp hmem with h | h
        · rw [h]
          exact hu
        · intro hseen
          exact (ihs u h) (List.mem_cons_of_mem _ hseen)

theorem c5_per_language_merge_dedup (all_stories_by_bucket : List (List Story)) (lang : Str) :
    (List.lookup lang (merge_stories_by_language all_stories_by_bucket)).getD []
        = first_occurrence_dedup (proj_lang lang (all_language_pairs all_stories_by_bucket)) []
      ∧ (((List.lookup lang (merge_stories_by_language all_stories_by_bucket)).getD []).map
          LocalizedStory.url).Nodup := by
  have hmain :
      (List.lookup lang (merge_stories_by_language all_stories_by_bucket)).getD []
        = first_occurrence_dedup (proj_lang lang (all_language_pairs all_stories_by_bucket)) [] := by
    unfold merge_stories_by_language
    rw [merge_fold_flatten, lookup_map_snd]
    have h := (merge_fold_invariant (all_language_pairs all_stories_by_bucket) [] lang).1
    have hempty : state_stories ([] : MergeState) lang = [] := rfl
    have hseen : state_seen ([] : MergeState) lang = [] := rfl
    rw [hempty, hseen, List.nil_append] at h
    rw [← h]
    unfold state_stories
    cases List.lookup lang
        ((all_language_pairs all_stories_by_bucket).foldl
          (fun m ls => merge_one_story m ls.1 ls.2) ([] : MergeState)) with
    | none => rfl
    | some v => rfl
  refine ⟨hmain, ?_⟩
  rw [hmain]
  exact (first_occurrence_dedup_nodup _ _).1

/-- C8 counterexample: for the snapshot listing exactly the three
hierarchies of the claim's scenario, the scrape stage does not produce a
three-topic tree: it unconditionally looks up five fixed hierarchy titles
(and indexes `children[3]` and `children[4]`), so it raises on the missing
`Story seeds` lookup. -/
theorem c8_three_hierarchy_snapshot_counterexample :
    hs3.map Hierarchy.title
        = [toStr "Multilingual stories", toStr "Audio stories", toStr "Story cards"]
      ∧ scrape fC8 fC8 fC8 fC8 fC8 hs3
          = .error (toStr "TypeError: NoneType is not subscriptable") :=
  ⟨rfl, rfl⟩

/-- C8 (amended): a root page listing three hierarchies yields a Web
Resource Tree with exactly those 3 entries in order; the scrape stage,
however, requires all five known hierarchy titles, and for a snapshot of
length 5 containing them it yields a Content Node tree whose top level has
one Topic per hierarchy in the fixed order, each containing one Topic per
discovered language. -/
theorem c8_amended
    (σ : Type)
    (crawl_one : Hierarchy σ → Str × List (Str × List σ))
    (d1 d2 d3 : HierarchyDiv)
    (f_multilingual f_audio f_card f_seed f_your : σ → Option ContentNode)
    (hs : List (Hierarchy σ)) (ha hb hc hd he : Hierarchy σ)
    (m0 : py_dict_get (hierarchies_map hs) (toStr "Multilingual stories") = some ha)
    (m1 : py_dict_get (hierarchies_map hs) (toStr "Audio stories") = some hb)
    (m2 : py_dict_get (hierarchies_map hs) (toStr "Story cards") = some hc)
    (m3 : py_dict_get (hierarchies_map hs) (toStr "Story seeds") = some hd)
    (m4 : py_dict_get (hierarchies_map hs) (toStr "Your stories") = some he)
    (k0 : ha.kind = toStr "NalibaliHierarchy") (k1 : hb.kind = toStr "NalibaliHierarchy")
    (k2 : hc.kind = toStr "NalibaliHierarchy") (k3 : hd.kind = toStr "NalibaliHierarchy")
    (k4 : he.kind = toStr "NalibaliHierarchy")
    (hlen : hs.length = 5) :
    ((crawl_story_hierarchies crawl_one [d1, d2, d3]).map Hierarchy.title
        = [get_text d1.h2_text, get_text d2.h2_text, get_text d3.h2_text])
      ∧ ((scrape f_multilingual f_audio f_card f_seed f_your hs).map
            (fun children => children.map (Option.map node_title))
          = .ok [some ha.title, some hb.title, some hc.title, some hd.title, some he.title])
      ∧ ((scrape f_multilingual f_audio f_card f_seed f_your hs).map
            (fun children => children.map (Option.map node_child_titles))
          = .ok [some (ha.children.map Prod.fst), some (hb.children.map Prod.fst),
              some (hc.children.map Prod.fst), some (hd.children.map Prod.fst),
              some (he.children.map Prod.fst)]) := by
  have hm5 : (hierarchies_map hs).length = 5 := by
    simp [hierarchies_map, hlen]
  have hscrape :
      scrape f_multilingual f_audio f_card f_seed f_your hs
        = .ok [ some (ContentNode.topic ha.title ha.title ha.description
                  (ha.children.map fun p =>
                    .topic (py_space_to_underscore ha.title ++ toStr "_" ++ p.1) p.1
                      (toStr "Stories in " ++ p.1) (p.2.filterMap f_multilingual) none)
                  (some ha.thumbnail))
              , some (ContentNode.topic hb.title hb.title hb.description
                  (hb.children.map fun p =>
                    .topic (py_space_to_underscore hb.title ++ toStr "_" ++ p.1) p.1
                      (toStr "Stories in " ++ p.1) (p.2.filterMap f_audio) none)
                  (some hb.thumbnail))
              , some (ContentNode.topic hc.title hc.title hc.description
                  (hc.children.map fun p =>
                    .topic (py_space_to_underscore hc.title ++ toStr "_" ++ p.1) p.1
                      (toStr "Stories in " ++ p.1) (p.2.filterMap f_card) none)
                  (some hc.thumbnail))
              , some (ContentNode.topic hd.title hd.title hd.description
                  (hd.children.map fun p =>
                    .topic (py_space_to_underscore hd.title ++ toStr "_" ++ p.1) p.1
                      (toStr "Stories in " ++ p.1) (p.2.filterMap f_seed) none)
                  (some hd.thumbnail))
              , some (ContentNode.topic he.title he.title he.description
                  (he.children.map fun p =>
                    .topic (py_space_to_underscore he.title ++ toStr "_" ++ p.1) p.1
                      (toStr "Stories in " ++ p.1) (p.2.filterMap f_your) none)
                  (some he.thumbnail)) ] := by
    unfold scrape
    dsimp only
    rw [m0, m1, m2, m3, m4]
    unfold scrape_hierarchy
    dsimp only
    rw [if_pos k0, if_pos k1, if_pos k2, if_pos k3, if_pos k4]
    dsimp only
    rw [hm5]
    rfl
  refine ⟨?_, ?_, ?_⟩
  · simp [crawl_story_hierarchies, to_story_hierarchy]
  · rw [hscrape]
    simp [Except.map, node_title]
  · rw [hscrape]
    simp [Except.map, node_child_titles, node_children, node_title, List.map_map]

theorem c8_amended_witness :
    ((crawl_story_hierarchies crawlC8 [divC8a, divC8b, divC8c]).map Hierarchy.title
        = [get_text divC8a.h2_text, get_text divC8b.h2_text, get_text divC8c.h2_text])
      ∧ ((scrape fC8 fC8 fC8 fC8 fC8 hs5).map
            (fun children => children.map (Option.map node_title))
          = .ok [some (hier5 "Multilingual stories").title, some (hier5 "Audio stories").title,
              some (hier5 "Story cards").title, some (hier5 "Story seeds").title,
              some (hier5 "Your stories").title])
      ∧ ((scrape fC8 fC8 fC8 fC8 fC8 hs5).map
            (fun children => children.map (Option.map node_child_titles))
          = .ok [some ((hier5 "Multilingual stories").children.map Prod.fst),
              some ((hier5 "Audio stories").children.map Prod.fst),
              some ((hier5 "Story cards").children.map Prod.fst),
              some ((hier5 "Story seeds").children.map Prod.fst),
              some ((hier5 "Your stories").children.map Prod.fst)]) :=
  c8_amended Str crawlC8 divC8a divC8b divC8c fC8 fC8 fC8 fC8 fC8 hs5
    (hier5 "Multilingual stories") (hier5 "Audio stories") (hier5 "Story cards")
    (hier5 "Story seeds") (hier5 "Your stories")
    rfl rfl rfl rfl rfl rfl rfl rfl rfl rfl rfl
